import Mathlib

/-!
Verification of the fl-doe-standards core: the benchmark-identifier
normalization and fuzzy-matching engine (`src/utils.py`), the crawl state
store (`src/db_manager.py`) and the crawl/retry orchestration
(`src/cpalms_scraper.py`), shallowly embedded in Lean 4.

External effects (network responses, parsed HTML, environmental success of
individual SQLite writes, wall-clock timestamps) are passed in explicitly as
values or oracles; pure logic is translated function by function from the
Python source.
-/

namespace FLDOE

/-! ## Character classes used by the benchmark-id regex

`BENCHMARK_PATTERN = r'\b([A-Z]{2}\.(?:\d{1,3}|K\d{1,2}|[A-Z])\.[A-Z]{1,3}\.\d+\.\d+)\b'`
(src/utils.py line 18), applied with `re.match`, i.e. anchored at the start of
the string but not at its end. -/

def isUpperAZ (c : Char) : Bool := decide ('A' ≤ c) && decide (c ≤ 'Z')

def isLowerAZ (c : Char) : Bool := decide ('a' ≤ c) && decide (c ≤ 'z')

def isDigit09 (c : Char) : Bool := decide ('0' ≤ c) && decide (c ≤ '9')

/-- Python `re` word character (`\w` / `\b` boundary class), ASCII fragment. -/
def isWordChar (c : Char) : Bool := isUpperAZ c || isLowerAZ c || isDigit09 c || c = '_'

/-- Consume exactly `k` characters all satisfying `p`; return the rest. -/
def chompN (p : Char → Bool) : Nat → List Char → Option (List Char)
  | 0, s => some s
  | _ + 1, [] => none
  | k + 1, c :: s => if p c then chompN p k s else none

/-- Feed the remainder of a successful `chompN` to the continuation. -/
def contOpt (κ : List Char → Bool) : Option (List Char) → Bool
  | some s => κ s
  | none => false

/-- Bounded repetition `p{lo,hi}` followed by continuation `κ`: a regex with
backtracking matches iff some repetition count in `[lo, hi]` lets the rest of
the pattern match. -/
def repRange (p : Char → Bool) (lo hi : Nat) (κ : List Char → Bool) (s : List Char) : Bool :=
  (List.range (hi + 1)).any fun k => decide (lo ≤ k) && contOpt κ (chompN p k s)

/-- A literal `\.` followed by continuation `κ`. -/
def dotThen (κ : List Char → Bool) : List Char → Bool
  | c :: r => decide (c = '.') && κ r
  | [] => false

/-- The grade alternation `(?:\d{1,3}|K\d{1,2}|[A-Z])` followed by `κ`. -/
def gradeTok (κ : List Char → Bool) (s : List Char) : Bool :=
  repRange isDigit09 1 3 κ s ||
  (match s with
   | c :: r => decide (c = 'K') && repRange isDigit09 1 2 κ r
   | [] => false) ||
  (match s with
   | c :: r => isUpperAZ c && κ r
   | [] => false)

/-- Pattern `\d+` followed by `κ` (at most `s.length` characters can be consumed). -/
def digitsPlus (κ : List Char → Bool) (s : List Char) : Bool :=
  repRange isDigit09 1 s.length κ s

/-- The trailing `\b` of the pattern: the previous character is a digit (a word
character), so a boundary holds iff the remainder is empty or starts with a
non-word character. -/
def tailBoundary : List Char → Bool
  | [] => true
  | c :: _ => !isWordChar c

/-- Truthiness of `re.match(BENCHMARK_PATTERN, s)`: the pattern matches at the
start of `s` (leading `\b` at position 0 holds iff the first character is a
word character; `[A-Z]{2}` then forces two uppercase letters). -/
def benchRegexMatch : List Char → Bool
  | a :: b :: r =>
    isWordChar a && isUpperAZ a && isUpperAZ b &&
      dotThen (gradeTok (dotThen (repRange isUpperAZ 1 3
        (dotThen (digitsPlus (dotThen (digitsPlus tailBoundary))))))) r
  | _ => false

/-! ## `normalize_benchmark_format` (src/utils.py lines 21-37) -/

/-- Characters removed by Python `str.strip()` (ASCII whitespace). -/
def pyWhitespace : List Char := [' ', '\t', '\n', '\r', '\x0b', '\x0c']

def pyStrip (s : List Char) : List Char :=
  ((s.dropWhile (pyWhitespace.contains ·)).reverse.dropWhile (pyWhitespace.contains ·)).reverse

/-- Model of `re.sub(r'[-_ ]', '.', query)`: each dash, underscore or space becomes a dot. -/
def sepToDot (c : Char) : Char := if c = '-' || c = '_' || c = ' ' then '.' else c

/-- Model of `normalize_benchmark_format`: uppercase, strip, convert separators to dots,
then return the string iff `re.match(BENCHMARK_PATTERN, query)` is truthy. -/
def normalize_benchmark_format (query : String) : Option String :=
  let q := (pyStrip (query.toList.map Char.toUpper)).map sepToDot
  if benchRegexMatch q then some (String.mk q) else none

/-! ## The claimed grammar: exactly five dot-separated segments -/

/-- Split a character list at every dot (each dot is a separator; no segment
contains a dot). -/
def splitDots : List Char → List (List Char)
  | [] => [[]]
  | c :: r =>
    if c = '.' then [] :: splitDots r
    else
      match splitDots r with
      | s :: ss => (c :: s) :: ss
      | [] => [[c]]

/-- Grade segment: 1-3 digits, or `K` followed by 1-2 digits, or a single
uppercase letter. -/
def isGradeSeg (seg : List Char) : Bool :=
  (decide (1 ≤ seg.length) && decide (seg.length ≤ 3) && seg.all isDigit09) ||
  (match seg with
   | c :: r => decide (c = 'K') && decide (1 ≤ r.length) && decide (r.length ≤ 2) && r.all isDigit09
   | [] => false) ||
  (match seg with
   | [c] => isUpperAZ c
   | _ => false)

/-- Well-formed `BenchmarkId` per the spec grammar: exactly five dot-separated
segments — two uppercase letters, grade token, 1-3 uppercase letters, one or
more digits, one or more digits — with nothing extra. -/
def wellFormedBenchmarkId (s : List Char) : Bool :=
  match splitDots s with
  | [sub, gr, strand, n1, n2] =>
    decide (sub.length = 2) && sub.all isUpperAZ &&
    isGradeSeg gr &&
    decide (1 ≤ strand.length) && decide (strand.length ≤ 3) && strand.all isUpperAZ &&
    decide (1 ≤ n1.length) && n1.all isDigit09 &&
    decide (1 ≤ n2.length) && n2.all isDigit09
  | _ => false

/-! ## `find_closest_benchmark` (src/utils.py lines 39-71)

The similarity scorer (`fuzzywuzzy`'s `WRatio`, an external library) is
abstracted as a `scorer : String → String → Nat` parameter on the 0-100
integer scale; the control flow around it is translated from the source. -/

/-- Model of `fuzzywuzzy.process.extractOne(query, choices)`: the pair
`(choice, score)` for the first choice achieving the maximum score, or `none`
for an empty choice list (`max` in Python keeps the first maximal element). -/
def extractOne (scorer : String → String → Nat) (query : String) :
    List String → Option (String × Nat)
  | [] => none
  | c :: cs =>
    some (cs.foldl
      (fun best x => if scorer query x > best.2 then (x, scorer query x) else best)
      (c, scorer query c))

def FUZZY_MATCH_THRESHOLD : Nat := 80

/-- Body of `find_closest_benchmark` with the similarity threshold as an
explicit parameter (the source reads the module constant
`FUZZY_MATCH_THRESHOLD`). -/
def find_closest_with (scorer : String → String → Nat) (threshold : Nat)
    (query : String) (benchmark_list : List String) : Option String × String :=
  match normalize_benchmark_format query with
  | none => (none, "Invalid benchmark format.")
  | some nb =>
    -- Python `if not normalized_benchmark:` is also true for the empty string
    if nb = "" then (none, "Invalid benchmark format.")
    else if nb ∈ benchmark_list then (some nb, s!"Exact match found for {nb}.")
    else if benchmark_list.isEmpty then (none, "No matching benchmark found.")
    else
      match extractOne scorer nb benchmark_list with
      | some (best, score) =>
        if threshold ≤ score then (some best, s!"Did you mean {best}?")
        else (none, "No matching benchmark found.")
      | none => (none, "No matching benchmark found.")

/-- Model of `find_closest_benchmark` as in the source, at threshold
`FUZZY_MATCH_THRESHOLD = 80`. -/
def find_closest_benchmark (scorer : String → String → Nat)
    (query : String) (benchmark_list : List String) : Option String × String :=
  find_closest_with scorer FUZZY_MATCH_THRESHOLD query benchmark_list

/-- Maximum similarity score over all candidates, zero when there are none. -/
def maxScore (scorer : String → String → Nat) (query : String) (benchmark_list : List String) : Nat :=
  (benchmark_list.map (scorer query)).foldl Nat.max 0

/-! ## Database model (src/db_manager.py)

Tables are modeled as maps keyed by their SQLite PRIMARY KEY (so
`INSERT OR REPLACE` is a map update); `resources` has an AUTOINCREMENT key and
is modeled as an append-only list of rows. -/

structure BenchmarkRow where
  grade_level : String
  definition : String
  subject : String
  cpalms_url : String
  last_updated : Option String
deriving DecidableEq

structure ResourceRow where
  benchmark_id : String
  title : String
  url : String
  resource_type : String
  description : String
  created_at : String
deriving DecidableEq

structure ScrapeStatusRow where
  status : String
  attempt_count : Nat
  last_attempt : String
  error_message : String
deriving DecidableEq

structure DBState where
  benchmarks : String → Option BenchmarkRow
  resources : List ResourceRow
  access_points : String → Option String
  scrape_status : String → Option ScrapeStatusRow

/-- Model of `DatabaseManager.store_benchmark`: `INSERT OR REPLACE INTO
benchmarks` — the whole row keyed by `benchmark_id` is replaced. The Python
signature defaults `subject` to `"Mathematics"`; callers omitting the argument
pass that value here. -/
def store_benchmark (tbl : String → Option BenchmarkRow)
    (benchmark_id grade_level defn cpalms_url subject : String)
    (last_updated : Option String) : String → Option BenchmarkRow :=
  fun k => if k = benchmark_id then some ⟨grade_level, defn, subject, cpalms_url, last_updated⟩ else tbl k

/-- Model of `DatabaseManager.update_scrape_status`: reads the current
`attempt_count` (1 if the row is absent, else previous + 1), then
`INSERT OR REPLACE` of the whole row. -/
def update_scrape_status (tbl : String → Option ScrapeStatusRow)
    (benchmark_id status last_attempt error_message : String) :
    String → Option ScrapeStatusRow :=
  let attempt_count :=
    match tbl benchmark_id with
    | some row => row.attempt_count + 1
    | none => 1
  fun k => if k = benchmark_id then some ⟨status, attempt_count, last_attempt, error_message⟩ else tbl k

/-- Model of `DatabaseManager.store_resource`: plain `INSERT` (append; no
uniqueness key). `ok = false` models the environmental case where the write
raises inside the method, which logs and returns `False` without inserting. -/
def store_resource (resources : List ResourceRow) (ok : Bool)
    (benchmark_id title url resource_type description now : String) :
    List ResourceRow × Bool :=
  if ok then (resources ++ [⟨benchmark_id, title, url, resource_type, description, now⟩], true)
  else (resources, false)

/-- Model of `DatabaseManager.store_access_point`: `INSERT OR REPLACE` keyed by
`access_point_id`; `ok = false` models an environmental write failure. -/
def store_access_point (tbl : String → Option String) (ok : Bool)
    (access_point_id benchmark_id : String) : (String → Option String) × Bool :=
  if ok then (fun k => if k = access_point_id then some benchmark_id else tbl k, true)
  else (tbl, false)

/-! ## Checkpoint persistence (src/cpalms_scraper.py lines 365-415) -/

structure CheckpointState where
  last_processed : String
  timestamp : String
deriving DecidableEq

/-- Model of `CPALMSScraper.save_state`: dumps `{last_processed, timestamp}` as
JSON to a temporary file then renames it over the state file, so the stored
value is replaced atomically; returns `True`. -/
def save_state (_file : Option CheckpointState) (last_processed now : String) :
    Option CheckpointState × Bool :=
  (some ⟨last_processed, now⟩, true)

/-- Model of `CPALMSScraper.load_state`: reads the state file and returns
`state.get('last_processed')`, or `None` when no state file exists. -/
def load_state (file : Option CheckpointState) : Option String :=
  match file with
  | some st => some st.last_processed
  | none => none

/-! ## `_make_request_with_retry` (src/cpalms_scraper.py lines 46-96)

The network is modeled as the list of outcomes the successive `requests.get`
calls would produce. Delays are recorded before the random ±10% jitter is
added (the jitter does not change whether or how often the code sleeps). -/

inductive HttpAttempt where
  | response (status : Nat) (body : String)
  | transportError (msg : String)
deriving DecidableEq

def retry_status_codes : List Nat := [429, 500, 502, 503, 504]

/-- A retryable condition: a status in `retry_status_codes` (for which the code
calls `raise_for_status`, raising `HTTPError`, a `RequestException`) or a
transport-level `RequestException` from `requests.get` itself. -/
def isRetryable : HttpAttempt → Bool
  | .response st _ => decide (st ∈ retry_status_codes)
  | .transportError _ => true

/-- Message of the exception the retry loop would re-raise on exhaustion. -/
def attemptMsg : HttpAttempt → String
  | .response st _ => s!"HTTP error {st}"
  | .transportError m => m

/-- Pre-jitter backoff delay:
`min(max_delay, base_delay * backoff_factor ** (retry_count - 1))`. -/
def backoffDelay (base_delay max_delay backoff_factor : ℚ) (retry_count : Nat) : ℚ :=
  min max_delay (base_delay * backoff_factor ^ (retry_count - 1))

/-- The `while True` loop of `_make_request_with_retry`, consuming the modeled
attempt outcomes. Returns the result (`ok (status, body)` for a returned
response, `error msg` for a raised exception) together with the list of
pre-jitter sleep delays in order. The empty-list case is a modeling artifact:
the environment supplies fewer outcomes than the loop would consume. -/
def request_loop (max_retries : Nat) (base_delay max_delay backoff_factor : ℚ) :
    List HttpAttempt → Nat → Except String (Nat × String) × List ℚ
  | [], _ => (Except.error "attempt sequence exhausted", [])
  | a :: rest, retry_count =>
    if isRetryable a then
      let rc := retry_count + 1
      if max_retries < rc then (Except.error (attemptMsg a), [])
      else
        let d := backoffDelay base_delay max_delay backoff_factor rc
        let out := request_loop max_retries base_delay max_delay backoff_factor rest rc
        (out.1, d :: out.2)
    else
      match a with
      | .response st body => (Except.ok (st, body), [])
      | .transportError m => (Except.error m, [])

/-- Model of `_make_request_with_retry` (Python defaults: `max_retries = 3`,
`base_delay = 5.0`, `max_delay = 60.0`, `backoff_factor = 2.0`). -/
def make_request_with_retry (attempts : List HttpAttempt) (max_retries : Nat)
    (base_delay max_delay backoff_factor : ℚ) : Except String (Nat × String) × List ℚ :=
  request_loop max_retries base_delay max_delay backoff_factor attempts 0

/-! ## `scrape_benchmark` and extraction (src/cpalms_scraper.py lines 98-363)

HTML parsing (`BeautifulSoup`) is external: an `ItemOutcome` carries the data
the extraction loops would read from the parsed page — for each
`classRelatedblock` its link text, href, resolved resource type (the
`_determine_resource_type` priority chain runs over markup) and description;
for each candidate access-point link its text. Each stored item carries the
environmental success flag of its database INSERT. -/

structure ResourceItem where
  title : String
  url : String
  resource_type : String
  description : String
  store_ok : Bool
deriving DecidableEq

inductive ItemOutcome where
  | ok (resources : List ResourceItem) (access_points : List (String × Bool))
  | error (msg : String)

/-- Whether an item outcome is the non-raising one: `scrape_benchmark` returns
`True` exactly on such outcomes (every raised exception yields `False`). -/
def isOkOutcome : ItemOutcome → Bool
  | .ok _ _ => true
  | .error _ => false

/-- Trailing-colon stripping applied to resource titles and access-point ids. -/
def stripTrailingColon (s : String) : String :=
  if s.endsWith ":" then s.dropRight 1 else s

/-- Relative URLs are made absolute by prefixing the site origin. -/
def absolutizeUrl (url : String) : String :=
  if url.startsWith "http" then url else "https://www.cpalms.org" ++ url

/-- Only lesson plans and formative assessments are kept. -/
def keepType (resource_type : String) : Bool :=
  resource_type = "Lesson Plan" || resource_type = "Formative Assessment"

/-- Model of `_extract_and_store_resources`: skip items with empty link text or
href, strip a trailing colon from the title, absolutize the URL, keep only the
two retained types, store each and count the successful stores. -/
def extract_and_store_resources (items : List ResourceItem)
    (resources : List ResourceRow) (benchmark_id now : String) : List ResourceRow × Nat :=
  match items with
  | [] => (resources, 0)
  | it :: rest =>
    if it.url = "" || it.title = "" then
      extract_and_store_resources rest resources benchmark_id now
    else
      let title := stripTrailingColon it.title
      let url := absolutizeUrl it.url
      if keepType it.resource_type then
        let out := store_resource resources it.store_ok benchmark_id title url it.resource_type it.description now
        let res := extract_and_store_resources rest out.1 benchmark_id now
        (res.1, (if out.2 then 1 else 0) + res.2)
      else
        extract_and_store_resources rest resources benchmark_id now

/-- Contiguous-substring test, modeling Python `pat in s` on strings. -/
def containsSub (pat : List Char) : List Char → Bool
  | [] => pat.isEmpty
  | c :: r => pat.isPrefixOf (c :: r) || containsSub pat r

/-- Model of `_extract_and_store_access_points`: per candidate link text, skip
if empty or not containing `"AP"`, strip a trailing colon, store keyed by the
access-point id and count the successful stores. -/
def extract_and_store_access_points (items : List (String × Bool))
    (tbl : String → Option String) (benchmark_id : String) : (String → Option String) × Nat :=
  match items with
  | [] => (tbl, 0)
  | it :: rest =>
    if it.1 = "" || !(containsSub "AP".toList it.1.toList) then
      extract_and_store_access_points rest tbl benchmark_id
    else
      let ap := stripTrailingColon it.1
      let out := store_access_point tbl it.2 ap benchmark_id
      let res := extract_and_store_access_points rest out.1 benchmark_id
      (res.1, (if out.2 then 1 else 0) + res.2)

/-- Model of `CPALMSScraper.scrape_benchmark`: set status `pending`; on a fetch
or parse exception set status `failed` with the message and return `False`; on
success store extracted data, re-store the benchmark row (with empty
`grade_level` and `definition` and default subject, as the call site does), set
status `success` and return `True`. -/
def scrape_benchmark (outcome : ItemOutcome) (db : DBState)
    (benchmark_id cpalms_url now : String) : DBState × Bool :=
  let db1 : DBState :=
    { db with scrape_status := update_scrape_status db.scrape_status benchmark_id "pending" now "" }
  match outcome with
  | .error msg =>
    ({ db1 with scrape_status := update_scrape_status db1.scrape_status benchmark_id "failed" now msg },
     false)
  | .ok items aps =>
    let r1 := extract_and_store_resources items db1.resources benchmark_id now
    let db2 : DBState := { db1 with resources := r1.1 }
    let a1 := extract_and_store_access_points aps db2.access_points benchmark_id
    let db3 : DBState := { db2 with access_points := a1.1 }
    let db4 : DBState :=
      { db3 with benchmarks := store_benchmark db3.benchmarks benchmark_id "" "" cpalms_url "Mathematics" (some now) }
    let db5 : DBState :=
      { db4 with scrape_status := update_scrape_status db4.scrape_status benchmark_id "success" now "" }
    (db5, true)

/-! ## `scrape_all_benchmarks` (src/cpalms_scraper.py lines 417-482)

The benchmark dictionary is a key-value list (Python dict keys are unique);
per-id fetch/extraction outcomes are an oracle. The inter-item sleep has no
state effect; the loop's outer `except` is unreachable because
`scrape_benchmark` and `save_state` catch internally and return booleans. -/

structure BenchmarkData where
  cpalms_url : String
deriving DecidableEq

/-- Python dict lookup `benchmarks[benchmark_id]`. -/
def lookupBenchmark (benchmarks : List (String × BenchmarkData)) (benchmark_id : String) :
    Option BenchmarkData :=
  (benchmarks.find? (fun p => p.1 = benchmark_id)).map Prod.snd

/-- The `benchmark.get('cpalms_url', '')` read for an id of the working set
(every such id is a dict key, so the `none` branch is unreachable). -/
def urlOf (benchmarks : List (String × BenchmarkData)) (benchmark_id : String) : String :=
  match lookupBenchmark benchmarks benchmark_id with
  | some d => d.cpalms_url
  | none => ""

structure CrawlState where
  db : DBState
  checkpoint : Option CheckpointState

/-- Python `list.sort()` on benchmark ids (lexicographic). -/
def sortIds (ids : List String) : List String :=
  ids.mergeSort (fun a b => a ≤ b)

/-- The list of ids the main loop iterates: sorted keys, and when a truthy
`start_from` is a member, the slice strictly after it
(`benchmark_ids[index(start_from) + 1:]`). -/
def workingSet (benchmarks : List (String × BenchmarkData)) (start_from : Option String) :
    List String :=
  let ids := sortIds (benchmarks.map Prod.fst)
  match start_from with
  | some x => if x ≠ "" ∧ x ∈ ids then ids.drop (ids.indexOf x + 1) else ids
  | none => ids

/-- The main loop of `scrape_all_benchmarks` over the remaining ids: skip ids
with an empty `cpalms_url` (no counters, no status, no checkpoint); otherwise
scrape, count it processed, and on success count it successful and save the
checkpoint. -/
def scrape_all_go (outcomes : String → ItemOutcome) (now : String)
    (benchmarks : List (String × BenchmarkData)) :
    List String → CrawlState → Nat → Nat → CrawlState × Nat × Nat
  | [], st, total_processed, total_successful => (st, total_processed, total_successful)
  | benchmark_id :: rest, st, total_processed, total_successful =>
    let cpalms_url := urlOf benchmarks benchmark_id
    if cpalms_url = "" then
      scrape_all_go outcomes now benchmarks rest st total_processed total_successful
    else
      let out := scrape_benchmark (outcomes benchmark_id) st.db benchmark_id cpalms_url now
      let st1 : CrawlState := { st with db := out.1 }
      if out.2 then
        let st2 : CrawlState := { st1 with checkpoint := (save_state st1.checkpoint benchmark_id now).1 }
        scrape_all_go outcomes now benchmarks rest st2 (total_processed + 1) (total_successful + 1)
      else
        scrape_all_go outcomes now benchmarks rest st1 (total_processed + 1) total_successful

/-- Model of `CPALMSScraper.scrape_all_benchmarks`. -/
def scrape_all_benchmarks (outcomes : String → ItemOutcome) (now : String)
    (benchmarks : List (String × BenchmarkData)) (start_from : Option String)
    (st : CrawlState) : CrawlState × Nat × Nat :=
  scrape_all_go outcomes now benchmarks (workingSet benchmarks start_from) st 0 0

/-- Freshly initialized database: all tables empty. -/
def emptyDB : DBState :=
  { benchmarks := fun _ => none
    resources := []
    access_points := fun _ => none
    scrape_status := fun _ => none }

/-- Crawl state before any run: empty database, no checkpoint file. -/
def initialCrawlState : CrawlState :=
  { db := emptyDB, checkpoint := none }

/-! ## Inversion of the regex matcher -/

theorem chompN_sound {p : Char → Bool} :
    ∀ (k : Nat) {s r : List Char}, chompN p k s = some r →
      ∃ pre, s = pre ++ r ∧ pre.length = k ∧ pre.all p = true
  | 0, s, r, h => by
    simp only [chompN, Option.some.injEq] at h
    exact ⟨[], by simp [h]⟩
  | k + 1, [], r, h => by simp [chompN] at h
  | k + 1, c :: s, r, h => by
    simp only [chompN] at h
    by_cases hc : p c = true
    · rw [if_pos hc] at h
      obtain ⟨pre, hs, hl, hall⟩ := chompN_sound k h
      exact ⟨c :: pre, by simp [hs], by simp [hl], by simp [hc, hall]⟩
    · rw [if_neg hc] at h
      exact absurd h (by simp)

theorem repRange_sound {p : Char → Bool} {lo hi : Nat} {κ : List Char → Bool} {s : List Char}
    (h : repRange p lo hi κ s = true) :
    ∃ pre rest, s = pre ++ rest ∧ lo ≤ pre.length ∧ pre.length ≤ hi ∧
      pre.all p = true ∧ κ rest = true := by
  unfold repRange at h
  rw [List.any_eq_true] at h
  obtain ⟨k, hkmem, hcond⟩ := h
  rw [Bool.and_eq_true, decide_eq_true_iff] at hcond
  obtain ⟨hlo, hc⟩ := hcond
  cases hch : chompN p k s with
  | none => rw [hch] at hc; simp [contOpt] at hc
  | some rest =>
    rw [hch] at hc
    obtain ⟨pre, hs, hl, hall⟩ := chompN_sound k hch
    have hk3 : k ≤ hi := by
      have := List.mem_range.mp hkmem
      omega
    exact ⟨pre, rest, hs, hl ▸ hlo, hl ▸ hk3, hall, hc⟩

theorem dotThen_sound {κ : List Char → Bool} {s : List Char} (h : dotThen κ s = true) :
    ∃ r, s = '.' :: r ∧ κ r = true := by
  cases s with
  | nil => simp [dotThen] at h
  | cons c r =>
    simp only [dotThen, Bool.and_eq_true, decide_eq_true_iff] at h
    exact ⟨r, by rw [h.1], h.2⟩

theorem isGradeSeg_digits {g : List Char} (h1 : 1 ≤ g.length) (h3 : g.length ≤ 3)
    (hall : g.all isDigit09 = true) : isGradeSeg g = true := by
  simp [isGradeSeg, h1, h3, hall]

theorem isGradeSeg_K {r : List Char} (h1 : 1 ≤ r.length) (h2 : r.length ≤ 2)
    (hall : r.all isDigit09 = true) : isGradeSeg ('K' :: r) = true := by
  simp [isGradeSeg, h1, h2, hall]

theorem isGradeSeg_single {c : Char} (h : isUpperAZ c = true) : isGradeSeg [c] = true := by
  simp [isGradeSeg, h]

theorem gradeTok_sound {κ : List Char → Bool} {s : List Char} (h : gradeTok κ s = true) :
    ∃ g rest, s = g ++ rest ∧ isGradeSeg g = true ∧ κ rest = true := by
  unfold gradeTok at h
  rw [Bool.or_eq_true, Bool.or_eq_true] at h
  rcases h with (h | h) | h
  · obtain ⟨pre, rest, hs, hl1, hl3, hall, hκ⟩ := repRange_sound h
    exact ⟨pre, rest, hs, isGradeSeg_digits hl1 hl3 hall, hκ⟩
  · cases s with
    | nil => simp at h
    | cons c r =>
      rw [Bool.and_eq_true, decide_eq_true_iff] at h
      obtain ⟨hc, hrep⟩ := h
      obtain ⟨pre, rest, hs, hl1, hl2, hall, hκ⟩ := repRange_sound hrep
      subst hc
      exact ⟨'K' :: pre, rest, by simp [hs], isGradeSeg_K hl1 hl2 hall, hκ⟩
  · cases s with
    | nil => simp at h
    | cons c r =>
      rw [Bool.and_eq_true] at h
      exact ⟨[c], r, rfl, isGradeSeg_single h.1, h.2⟩

theorem benchRegexMatch_sound {s : List Char} (h : benchRegexMatch s = true) :
    ∃ sub g strand n1 n2 t,
      s = sub ++ '.' :: (g ++ '.' :: (strand ++ '.' :: (n1 ++ '.' :: (n2 ++ t)))) ∧
      sub.length = 2 ∧ sub.all isUpperAZ = true ∧
      isGradeSeg g = true ∧
      1 ≤ strand.length ∧ strand.length ≤ 3 ∧ strand.all isUpperAZ = true ∧
      1 ≤ n1.length ∧ n1.all isDigit09 = true ∧
      1 ≤ n2.length ∧ n2.all isDigit09 = true ∧
      tailBoundary t = true := by
  match s with
  | [] => simp [benchRegexMatch] at h
  | [a] => simp [benchRegexMatch] at h
  | a :: b :: r =>
    simp only [benchRegexMatch, Bool.and_eq_true] at h
    obtain ⟨⟨⟨_, ha⟩, hb⟩, hrest⟩ := h
    obtain ⟨r1, hr1, h1⟩ := dotThen_sound hrest
    obtain ⟨g, r2, hg2, hgseg, h2⟩ := gradeTok_sound h1
    obtain ⟨r3, hr3, h3⟩ := dotThen_sound h2
    obtain ⟨strand, r4, hst, hs1, hs3, hsall, h4⟩ := repRange_sound h3
    obtain ⟨r5, hr5, h5⟩ := dotThen_sound h4
    unfold digitsPlus at h5
    obtain ⟨n1, r6, hn1, hn11, _, hn1all, h6⟩ := repRange_sound h5
    obtain ⟨r7, hr7, h7⟩ := dotThen_sound h6
    obtain ⟨n2, t, hn2, hn21, _, hn2all, h8⟩ := repRange_sound h7
    refine ⟨[a, b], g, strand, n1, n2, t, ?_, rfl, by simp [ha, hb], hgseg,
      hs1, hs3, hsall, hn11, hn1all, hn21, hn2all, h8⟩
    subst hr1 hg2 hr3 hst hr5 hn1 hr7 hn2
    simp

theorem all_upper_ne_dot {l : List Char} (h : l.all isUpperAZ = true) : ∀ c ∈ l, c ≠ '.' := by
  intro c hc heq
  subst heq
  have := List.all_eq_true.mp h _ hc
  exact absurd this (by decide)

theorem all_digit_ne_dot {l : List Char} (h : l.all isDigit09 = true) : ∀ c ∈ l, c ≠ '.' := by
  intro c hc heq
  subst heq
  have := List.all_eq_true.mp h _ hc
  exact absurd this (by decide)

theorem isGradeSeg_ne_dot {g : List Char} (h : isGradeSeg g = true) : ∀ c ∈ g, c ≠ '.' := by
  unfold isGradeSeg at h
  rw [Bool.or_eq_true, Bool.or_eq_true] at h
  rcases h with (h | h) | h
  · rw [Bool.and_eq_true, Bool.and_eq_true] at h
    exact all_digit_ne_dot h.2
  · cases g with
    | nil => simp at h
    | cons c r =>
      rw [Bool.and_eq_true, Bool.and_eq_true, Bool.and_eq_true, decide_eq_true_iff] at h
      obtain ⟨⟨⟨hc, _⟩, _⟩, hall⟩ := h
      intro x hx heq
      subst heq
      rcases List.mem_cons.mp hx with h1 | h1
      · rw [hc] at h1; exact absurd h1 (by decide)
      · exact all_digit_ne_dot hall _ h1 rfl
  · match g, h with
    | [c], h =>
      intro x hx heq
      subst heq
      rw [List.mem_singleton] at hx
      subst hx
      exact absurd h (by decide)

theorem splitDots_nodot {seg : List Char} (h : ∀ c ∈ seg, c ≠ '.') : splitDots seg = [seg] := by
  induction seg with
  | nil => rfl
  | cons c r ih =>
    have hc : c ≠ '.' := h c (by simp)
    have ihr : splitDots r = [r] := ih (fun x hx => h x (by simp [hx]))
    simp [splitDots, hc, ihr]

theorem splitDots_append_dot {seg rest : List Char} (h : ∀ c ∈ seg, c ≠ '.') :
    splitDots (seg ++ '.' :: rest) = seg :: splitDots rest := by
  induction seg with
  | nil => simp [splitDots]
  | cons c r ih =>
    have hc : c ≠ '.' := h c (by simp)
    have ihr := ih (fun x hx => h x (by simp [hx]))
    simp [splitDots, hc, ihr]

theorem wellFormed_of_parts {sub g strand n1 n2 : List Char}
    (hsub2 : sub.length = 2) (hsub : sub.all isUpperAZ = true)
    (hg : isGradeSeg g = true)
    (hst1 : 1 ≤ strand.length) (hst3 : strand.length ≤ 3) (hstall : strand.all isUpperAZ = true)
    (hn11 : 1 ≤ n1.length) (hn1 : n1.all isDigit09 = true)
    (hn21 : 1 ≤ n2.length) (hn2 : n2.all isDigit09 = true) :
    wellFormedBenchmarkId (sub ++ '.' :: (g ++ '.' :: (strand ++ '.' :: (n1 ++ '.' :: n2)))) = true := by
  unfold wellFormedBenchmarkId
  rw [splitDots_append_dot (all_upper_ne_dot hsub),
      splitDots_append_dot (isGradeSeg_ne_dot hg),
      splitDots_append_dot (all_upper_ne_dot hstall),
      splitDots_append_dot (all_digit_ne_dot hn1),
      splitDots_nodot (all_digit_ne_dot hn2)]
  simp [hsub2, hsub, hg, hst1, hst3, hstall, hn11, hn1, hn21, hn2]

end FLDOE

namespace FLDOE

/-! ## Claim C1 -/

theorem normalize_sound {query s : String} (h : normalize_benchmark_format query = some s) :
    s = String.mk ((pyStrip (query.toList.map Char.toUpper)).map sepToDot) ∧
    benchRegexMatch ((pyStrip (query.toList.map Char.toUpper)).map sepToDot) = true := by
  simp only [normalize_benchmark_format] at h
  split at h
  next hm => exact ⟨(Option.some.injEq _ _ ▸ h).symm, hm⟩
  next => exact absurd h (by simp)

/-- C1 counterexample: on the input `"MA.K.NSO.1.1.2"`, normalization returns
the string unchanged even though it has six dot-separated segments, because
the grammar is checked with `re.match`, which anchors at the start of the
string but not at its end. A partially valid identifier is therefore returned
to the matcher, contradicting the claim that every returned string is
well-formed per the five-segment grammar. -/
theorem c1_counterexample :
    normalize_benchmark_format "MA.K.NSO.1.1.2" = some "MA.K.NSO.1.1.2" ∧
    wellFormedBenchmarkId "MA.K.NSO.1.1.2".toList = false :=
  ⟨by decide, by decide⟩

/-- C1 (amended): for every raw input string, `normalize_benchmark_format`
either returns the invalid outcome (`none`) or returns a string that BEGINS
with a well-formed BenchmarkId — two uppercase letters, dot, 1-3 digits or a
grade token like K or K12, dot, 1-3 uppercase letters, dot, one or more
digits, dot, one or more digits — followed by a word boundary; the returned
string may carry additional content after those five segments (for example
further dot-separated segments), so a partially valid identifier can be
returned to the matcher. -/
theorem c1_normalize_wellformed_head (query s : String)
    (h : normalize_benchmark_format query = some s) :
    ∃ p t, s.toList = p ++ t ∧ wellFormedBenchmarkId p = true ∧ tailBoundary t = true := by
  obtain ⟨rfl, hm⟩ := normalize_sound h
  obtain ⟨sub, g, strand, n1, n2, t, hdec, hsub2, hsuball, hgseg,
    hs1, hs3, hsall, hn11, hn1all, hn21, hn2all, hb⟩ := benchRegexMatch_sound hm
  refine ⟨sub ++ '.' :: (g ++ '.' :: (strand ++ '.' :: (n1 ++ '.' :: n2))), t, ?_,
    wellFormed_of_parts hsub2 hsuball hgseg hs1 hs3 hsall hn11 hn1all hn21 hn2all, hb⟩
  show (pyStrip (query.toList.map Char.toUpper)).map sepToDot = _
  rw [hdec]
  simp

/-- C1 witness: the amended theorem applied at the concrete input
`"ma-k-nso-1-1"`, which normalizes to `"MA.K.NSO.1.1"`. -/
theorem c1_witness :
    ∃ p t, ("MA.K.NSO.1.1" : String).toList = p ++ t ∧
      wellFormedBenchmarkId p = true ∧ tailBoundary t = true :=
  c1_normalize_wellformed_head "ma-k-nso-1-1" "MA.K.NSO.1.1" (by decide)

end FLDOE

namespace FLDOE

/-! ## Claims C5 and C6 -/

theorem normalize_ne_empty {q s : String} (h : normalize_benchmark_format q = some s) :
    s ≠ "" := by
  obtain ⟨rfl, hm⟩ := normalize_sound h
  intro he
  have hnil : (pyStrip (q.toList.map Char.toUpper)).map sepToDot = [] := by
    have := congrArg String.toList he
    simpa using this
  rw [hnil] at hm
  exact absurd hm (by decide)

theorem extractOne_spec (scorer : String → String → Nat) (q : String) :
    ∀ (cs : List String) (c b : String) (sc : Nat),
      extractOne scorer q (c :: cs) = some (b, sc) →
      (b = c ∨ b ∈ cs) ∧ sc = scorer q b ∧ scorer q c ≤ sc ∧ ∀ x ∈ cs, scorer q x ≤ sc
  | [], c, b, sc, h => by
    simp only [extractOne, List.foldl_nil, Option.some.injEq, Prod.mk.injEq] at h
    obtain ⟨rfl, rfl⟩ := h
    exact ⟨Or.inl rfl, rfl, Nat.le_refl _, by simp⟩
  | x :: cs, c, b, sc, h => by
    simp only [extractOne, List.foldl_cons] at h
    by_cases hx : scorer q x > scorer q c
    · rw [if_pos hx] at h
      have h' : extractOne scorer q (x :: cs) = some (b, sc) := by
        simpa [extractOne] using h
      obtain ⟨hmem, hsc, hcb, hall⟩ := extractOne_spec scorer q cs x b sc h'
      refine ⟨?_, hsc, Nat.le_trans (Nat.le_of_lt hx) hcb, ?_⟩
      · rcases hmem with rfl | h2
        · exact Or.inr (List.mem_cons_self _ _)
        · exact Or.inr (List.mem_cons_of_mem _ h2)
      · intro y hy
        rcases List.mem_cons.mp hy with rfl | h2
        · exact hcb
        · exact hall _ h2
    · rw [if_neg hx] at h
      have h' : extractOne scorer q (c :: cs) = some (b, sc) := by
        simpa [extractOne] using h
      obtain ⟨hmem, hsc, hcb, hall⟩ := extractOne_spec scorer q cs c b sc h'
      refine ⟨?_, hsc, hcb, ?_⟩
      · rcases hmem with rfl | h2
        · exact Or.inl rfl
        · exact Or.inr (List.mem_cons_of_mem _ h2)
      · intro y hy
        rcases List.mem_cons.mp hy with rfl | h2
        · exact Nat.le_trans (Nat.le_of_not_lt hx) hcb
        · exact hall _ h2

theorem foldl_max_le {m : Nat} :
    ∀ (l : List Nat) (a : Nat), a ≤ m → (∀ x ∈ l, x ≤ m) → l.foldl Nat.max a ≤ m
  | [], a, ha, _ => ha
  | x :: l, a, ha, hl => by
    apply foldl_max_le l (Nat.max a x)
    · exact Nat.max_le.mpr ⟨ha, hl x (by simp)⟩
    · intro y hy; exact hl y (by simp [hy])

theorem init_le_foldl_max : ∀ (l : List Nat) (a : Nat), a ≤ l.foldl Nat.max a
  | [], _ => Nat.le_refl _
  | x :: l, a =>
    Nat.le_trans (Nat.le_max_left a x) (init_le_foldl_max l (Nat.max a x))

theorem mem_le_foldl_max : ∀ (l : List Nat) (a x : Nat), x ∈ l → x ≤ l.foldl Nat.max a
  | y :: l, a, x, hx => by
    rcases List.mem_cons.mp hx with rfl | h2
    · exact Nat.le_trans (Nat.le_max_right a x) (init_le_foldl_max l (Nat.max a x))
    · exact mem_le_foldl_max l (Nat.max a y) x h2

theorem maxScore_eq_of_extractOne {scorer : String → String → Nat} {q b : String}
    {bl : List String} {sc : Nat} (h : extractOne scorer q bl = some (b, sc)) :
    maxScore scorer q bl = sc := by
  cases bl with
  | nil => simp [extractOne] at h
  | cons c cs =>
    obtain ⟨hmem, hsc, hc, hall⟩ := extractOne_spec scorer q cs c b sc h
    unfold maxScore
    apply Nat.le_antisymm
    · apply foldl_max_le
      · exact Nat.zero_le _
      · intro x hx
        obtain ⟨y, hy, rfl⟩ := List.mem_map.mp hx
        rcases List.mem_cons.mp hy with rfl | hy2
        · exact hc
        · exact hall _ hy2
    · subst hsc
      apply mem_le_foldl_max
      apply List.mem_map.mpr
      refine ⟨b, ?_, rfl⟩
      rcases hmem with rfl | h2
      · exact List.mem_cons_self _ _
      · exact List.mem_cons_of_mem _ h2

/-- C5: for every query whose normalized form is a member of the known list,
matching returns that normalized id with the exact-match outcome via a strict
membership check: the result does not depend on the similarity scorer (fuzzy
scoring is short-circuited) nor on the similarity threshold. -/
theorem c5_exact_short_circuit (scorer : String → String → Nat) (threshold : Nat)
    (query nb : String) (benchmark_list : List String)
    (hn : normalize_benchmark_format query = some nb) (hmem : nb ∈ benchmark_list) :
    find_closest_with scorer threshold query benchmark_list
      = (some nb, s!"Exact match found for {nb}.") ∧
    find_closest_benchmark scorer query benchmark_list
      = (some nb, s!"Exact match found for {nb}.") := by
  have hne : nb ≠ "" := normalize_ne_empty hn
  constructor
  · unfold find_closest_with
    rw [hn]
    simp [hne, hmem]
  · unfold find_closest_benchmark find_closest_with
    rw [hn]
    simp [hne, hmem]

/-- C5 witness: the theorem applied at query `"ma.k.nso.1.1"` with known list
`["MA.K.NSO.1.1"]`, a zero scorer and threshold 95. -/
theorem c5_witness :
    find_closest_with (fun _ _ => 0) 95 "ma.k.nso.1.1" ["MA.K.NSO.1.1"]
      = (some "MA.K.NSO.1.1", "Exact match found for MA.K.NSO.1.1.") ∧
    find_closest_benchmark (fun _ _ => 0) "ma.k.nso.1.1" ["MA.K.NSO.1.1"]
      = (some "MA.K.NSO.1.1", "Exact match found for MA.K.NSO.1.1.") :=
  c5_exact_short_circuit (fun _ _ => 0) 95 "ma.k.nso.1.1" "MA.K.NSO.1.1"
    ["MA.K.NSO.1.1"] (by decide) (by decide)

end FLDOE

namespace FLDOE

/-- C6: for a validly formatted query that is not an exact member of the known
list: with an empty known list the matcher does not crash and returns the
no-match outcome; when the maximum similarity score over all candidates is at
least 80 it returns a maximum-scoring candidate with the fuzzy outcome; and
when the maximum score is below 80 it returns the no-match outcome (an empty
candidate list has maximum score zero). -/
theorem c6_fuzzy_threshold (scorer : String → String → Nat) (query nb : String)
    (benchmark_list : List String)
    (hn : normalize_benchmark_format query = some nb) (hnm : nb ∉ benchmark_list) :
    (benchmark_list = [] →
      find_closest_benchmark scorer query benchmark_list
        = (none, "No matching benchmark found.")) ∧
    (80 ≤ maxScore scorer nb benchmark_list →
      ∃ best, best ∈ benchmark_list ∧
        scorer nb best = maxScore scorer nb benchmark_list ∧
        find_closest_benchmark scorer query benchmark_list
          = (some best, s!"Did you mean {best}?")) ∧
    (maxScore scorer nb benchmark_list < 80 →
      find_closest_benchmark scorer query benchmark_list
        = (none, "No matching benchmark found.")) := by
  have hne : nb ≠ "" := normalize_ne_empty hn
  cases benchmark_list with
  | nil =>
    refine ⟨fun _ => ?_, fun hge => ?_, fun _ => ?_⟩
    · unfold find_closest_benchmark find_closest_with
      rw [hn]
      simp [hne]
    · exact absurd hge (by simp [maxScore])
    · unfold find_closest_benchmark find_closest_with
      rw [hn]
      simp [hne]
  | cons c cs =>
    obtain ⟨b, sc, hext⟩ : ∃ b sc, extractOne scorer nb (c :: cs) = some (b, sc) :=
      ⟨_, _, rfl⟩
    have hmax : maxScore scorer nb (c :: cs) = sc := maxScore_eq_of_extractOne hext
    obtain ⟨hmem, hsc, _, _⟩ := extractOne_spec scorer nb cs c b sc hext
    have hbmem : b ∈ c :: cs := by
      rcases hmem with rfl | h2
      · exact List.mem_cons_self _ _
      · exact List.mem_cons_of_mem _ h2
    refine ⟨fun hcontra => by simp at hcontra, fun hge => ?_, fun hlt => ?_⟩
    · refine ⟨b, hbmem, by rw [hmax, hsc], ?_⟩
      unfold find_closest_benchmark find_closest_with
      rw [hn]
      rw [hmax] at hge
      simp only [FUZZY_MATCH_THRESHOLD]
      simp [hne, hnm, hext, hge]
    · unfold find_closest_benchmark find_closest_with
      rw [hn]
      rw [hmax] at hlt
      simp only [FUZZY_MATCH_THRESHOLD]
      simp [hne, hnm, hext, Nat.not_le.mpr hlt]

/-- C6 witness: the theorem applied at query `"MA.K.NSO.1.2"`, known list
`["MA.K.NSO.1.1"]` and the constant scorer 90, whose maximum score 90 clears
the threshold. -/
theorem c6_witness :
    ((["MA.K.NSO.1.1"] : List String) = [] →
      find_closest_benchmark (fun _ _ => 90) "MA.K.NSO.1.2" ["MA.K.NSO.1.1"]
        = (none, "No matching benchmark found.")) ∧
    (80 ≤ maxScore (fun _ _ => 90) "MA.K.NSO.1.2" ["MA.K.NSO.1.1"] →
      ∃ best, best ∈ ["MA.K.NSO.1.1"] ∧
        (fun (_ _ : String) => 90) "MA.K.NSO.1.2" best
          = maxScore (fun _ _ => 90) "MA.K.NSO.1.2" ["MA.K.NSO.1.1"] ∧
        find_closest_benchmark (fun _ _ => 90) "MA.K.NSO.1.2" ["MA.K.NSO.1.1"]
          = (some best, s!"Did you mean {best}?")) ∧
    (maxScore (fun _ _ => 90) "MA.K.NSO.1.2" ["MA.K.NSO.1.1"] < 80 →
      find_closest_benchmark (fun _ _ => 90) "MA.K.NSO.1.2" ["MA.K.NSO.1.1"]
        = (none, "No matching benchmark found.")) :=
  c6_fuzzy_threshold (fun _ _ => 90) "MA.K.NSO.1.2" "MA.K.NSO.1.2"
    ["MA.K.NSO.1.1"] (by decide) (by decide)

end FLDOE

namespace FLDOE

/-- C4: `update_scrape_status` increments `attempt_count` monotonically for a
fixed id: the first call (row absent) writes attempt count 1, any call on an
existing row writes the previous count plus one — whatever the status
argument — and three successive calls write 1, 2, 3. -/
theorem c4_attempt_count_increments (tbl : String → Option ScrapeStatusRow)
    (bid s1 t1 e1 s2 t2 e2 s3 t3 e3 : String) (h : tbl bid = none) :
    (update_scrape_status tbl bid s1 t1 e1) bid = some ⟨s1, 1, t1, e1⟩ ∧
    (update_scrape_status (update_scrape_status tbl bid s1 t1 e1) bid s2 t2 e2) bid
      = some ⟨s2, 2, t2, e2⟩ ∧
    (update_scrape_status (update_scrape_status
        (update_scrape_status tbl bid s1 t1 e1) bid s2 t2 e2) bid s3 t3 e3) bid
      = some ⟨s3, 3, t3, e3⟩ ∧
    ∀ (tbl2 : String → Option ScrapeStatusRow) (row : ScrapeStatusRow) (s t e : String),
      tbl2 bid = some row →
      (update_scrape_status tbl2 bid s t e) bid = some ⟨s, row.attempt_count + 1, t, e⟩ := by
  refine ⟨?_, ?_, ?_, ?_⟩
  · simp [update_scrape_status, h]
  · simp [update_scrape_status, h]
  · simp [update_scrape_status, h]
  · intro tbl2 row s t e h2
    simp [update_scrape_status, h2]

/-- C4 witness: three successive status updates for `"MA.K.NSO.1.1"` starting
from an empty table yield attempt counts 1, 2, 3. -/
theorem c4_witness :
    (update_scrape_status (fun _ => none) "MA.K.NSO.1.1" "pending" "t1" "") "MA.K.NSO.1.1"
      = some ⟨"pending", 1, "t1", ""⟩ ∧
    (update_scrape_status (update_scrape_status (fun _ => none) "MA.K.NSO.1.1" "pending" "t1" "")
        "MA.K.NSO.1.1" "failed" "t2" "boom") "MA.K.NSO.1.1"
      = some ⟨"failed", 2, "t2", "boom"⟩ ∧
    (update_scrape_status (update_scrape_status
        (update_scrape_status (fun _ => none) "MA.K.NSO.1.1" "pending" "t1" "")
        "MA.K.NSO.1.1" "failed" "t2" "boom") "MA.K.NSO.1.1" "success" "t3" "") "MA.K.NSO.1.1"
      = some ⟨"success", 3, "t3", ""⟩ ∧
    ∀ (tbl2 : String → Option ScrapeStatusRow) (row : ScrapeStatusRow) (s t e : String),
      tbl2 "MA.K.NSO.1.1" = some row →
      (update_scrape_status tbl2 "MA.K.NSO.1.1" s t e) "MA.K.NSO.1.1"
        = some ⟨s, row.attempt_count + 1, t, e⟩ :=
  c4_attempt_count_increments (fun _ => none) "MA.K.NSO.1.1"
    "pending" "t1" "" "failed" "t2" "boom" "success" "t3" "" rfl

/-- C8: checkpoint persistence round-trips — for every benchmark id string
(and any previous checkpoint file content), saving the checkpoint with that id
and then loading it returns exactly that id. -/
theorem c8_checkpoint_roundtrip (file : Option CheckpointState) (benchmark_id now : String) :
    load_state (save_state file benchmark_id now).1 = some benchmark_id := rfl

/-- C3: benchmarks are NOT immutable under the crawl — `scrape_benchmark` on a
successful scrape re-stores the benchmark row via `INSERT OR REPLACE` with
empty `grade_level` and `definition` (the code comments say it merely updates
`last_updated`), so a benchmark ingested with definition `"Test definition"`
and grade `"K"` has both fields replaced by empty strings after its page is
scraped. -/
theorem c3_crawl_overwrites_ingested_fields :
    (store_benchmark emptyDB.benchmarks "MA.K.NSO.1.1" "K" "Test definition"
        "https://www.cpalms.org/PreviewStandard/Preview/15454" "Mathematics" none) "MA.K.NSO.1.1"
      = some ⟨"K", "Test definition", "Mathematics",
          "https://www.cpalms.org/PreviewStandard/Preview/15454", none⟩ ∧
    ((scrape_benchmark (.ok [] [])
        { emptyDB with
            benchmarks := store_benchmark emptyDB.benchmarks "MA.K.NSO.1.1" "K" "Test definition"
              "https://www.cpalms.org/PreviewStandard/Preview/15454" "Mathematics" none }
        "MA.K.NSO.1.1" "https://www.cpalms.org/PreviewStandard/Preview/15454" "t1").1.benchmarks
      "MA.K.NSO.1.1")
      = some ⟨"", "", "Mathematics",
          "https://www.cpalms.org/PreviewStandard/Preview/15454", some "t1"⟩ := by
  constructor
  · simp [store_benchmark]
  · simp [scrape_benchmark, store_benchmark, extract_and_store_resources,
      extract_and_store_access_points, update_scrape_status]

end FLDOE

namespace FLDOE

/-! ## Claim C2 -/

theorem request_loop_not_retryable (mr : Nat) (b m f : ℚ) (st : Nat) (body : String)
    (rest : List HttpAttempt) (rc : Nat) (hst : st ∉ retry_status_codes) :
    request_loop mr b m f (.response st body :: rest) rc = (Except.ok (st, body), []) := by
  simp [request_loop, isRetryable, hst]

theorem request_loop_retryable_step (mr : Nat) (b m f : ℚ) (a : HttpAttempt)
    (rest : List HttpAttempt) (rc : Nat) (ha : isRetryable a = true) (hrc : rc + 1 ≤ mr) :
    request_loop mr b m f (a :: rest) rc =
      ((request_loop mr b m f rest (rc + 1)).1,
        backoffDelay b m f (rc + 1) :: (request_loop mr b m f rest (rc + 1)).2) := by
  simp [request_loop, ha, Nat.not_lt.mpr hrc]

theorem map_backoff_shift (b m f : ℚ) (n rc : Nat) :
    List.map (fun i => backoffDelay b m f (rc + i + 1)) (List.range (n + 1))
      = backoffDelay b m f (rc + 1) ::
        List.map (fun i => backoffDelay b m f (rc + 1 + i + 1)) (List.range n) := by
  rw [List.range_succ_eq_map, List.map_cons, List.map_map]
  refine List.cons_eq_cons.mpr ⟨rfl, ?_⟩
  apply List.map_congr_left
  intro i _
  show backoffDelay b m f (rc + (i + 1) + 1) = backoffDelay b m f (rc + 1 + i + 1)
  congr 1
  omega

theorem map_backoff_zero (b m f : ℚ) (n : Nat) :
    List.map (fun i => backoffDelay b m f (0 + i + 1)) (List.range n)
      = List.map (fun i => backoffDelay b m f (i + 1)) (List.range n) := by
  apply List.map_congr_left
  intro i _
  show backoffDelay b m f (0 + i + 1) = backoffDelay b m f (i + 1)
  congr 1
  omega

theorem request_loop_ok_after_retries (mr : Nat) (b m f : ℚ) (st : Nat) (body : String) :
    ∀ (pre post : List HttpAttempt) (rc : Nat),
      (∀ a ∈ pre, isRetryable a = true) → rc + pre.length ≤ mr →
      st ∉ retry_status_codes →
      request_loop mr b m f (pre ++ .response st body :: post) rc =
        (Except.ok (st, body),
          (List.range pre.length).map (fun i => backoffDelay b m f (rc + i + 1)))
  | [], post, rc, _, _, hst => by
    simpa using request_loop_not_retryable mr b m f st body post rc hst
  | a :: pre, post, rc, hall, hlen, hst => by
    have ha := hall a (by simp)
    have hrc : rc + 1 ≤ mr := by
      simp only [List.length_cons] at hlen
      omega
    rw [List.cons_append, request_loop_retryable_step mr b m f a _ rc ha hrc,
        request_loop_ok_after_retries mr b m f st body pre post (rc + 1)
          (fun x hx => hall x (by simp [hx]))
          (by simp only [List.length_cons] at hlen; omega) hst]
    show (Except.ok (st, body),
        backoffDelay b m f (rc + 1)
          :: List.map (fun i => backoffDelay b m f (rc + 1 + i + 1)) (List.range pre.length))
      = (Except.ok (st, body),
        List.map (fun i => backoffDelay b m f (rc + i + 1)) (List.range (pre.length + 1)))
    rw [map_backoff_shift]

theorem request_loop_exhausted (mr : Nat) (b m f : ℚ) :
    ∀ (pre : List HttpAttempt) (a : HttpAttempt) (post : List HttpAttempt) (rc : Nat),
      (∀ x ∈ pre, isRetryable x = true) → isRetryable a = true → rc + pre.length = mr →
      request_loop mr b m f (pre ++ a :: post) rc =
        (Except.error (attemptMsg a),
          (List.range pre.length).map (fun i => backoffDelay b m f (rc + i + 1)))
  | [], a, post, rc, _, ha, hlen => by
    simp only [List.length_nil, Nat.add_zero] at hlen
    subst hlen
    simp [request_loop, ha]
  | x :: pre, a, post, rc, hall, ha, hlen => by
    have hx := hall x (by simp)
    have hrc : rc + 1 ≤ mr := by
      simp only [List.length_cons] at hlen
      omega
    rw [List.cons_append, request_loop_retryable_step mr b m f x _ rc hx hrc,
        request_loop_exhausted mr b m f pre a post (rc + 1)
          (fun y hy => hall y (by simp [hy])) ha
          (by simp only [List.length_cons] at hlen; omega)]
    show (Except.error (attemptMsg a),
        backoffDelay b m f (rc + 1)
          :: List.map (fun i => backoffDelay b m f (rc + 1 + i + 1)) (List.range pre.length))
      = (Except.error (attemptMsg a),
        List.map (fun i => backoffDelay b m f (rc + i + 1)) (List.range (pre.length + 1)))
    rw [map_backoff_shift]

/-- C2 counterexample: on the single response 404, the fetch performs zero
retries and zero backoff sleeps, but it does not fail: the 404 response is
returned as the (ok) result — `raise_for_status` is only called for the
retryable status codes, so a non-retryable HTTP error passes through as a
normal response instead of failing. -/
theorem c2_counterexample :
    make_request_with_retry [.response 404 "Not Found"] 3 5 60 2
      = (Except.ok (404, "Not Found"), []) := by
  simp [make_request_with_retry, request_loop, isRetryable, retry_status_codes]

/-- C2 (amended): the fetch retries (with capped exponential backoff sleep)
exactly when the attempt signals a retryable condition — HTTP status 429, 500,
502, 503, 504, or a network-level transport error: (i) any other HTTP status,
such as 404, is returned immediately as the result with zero retries and zero
backoff sleeps (the error status is passed through to the caller, not raised
as a failure); (ii) `k ≤ max_retries` retryable outcomes followed by a
non-retryable response yield exactly `k` backoff sleeps of
`min(max_delay, base_delay * backoff_factor^(attempt-1))` and that response as
the result; (iii) after `max_retries` retryable outcomes, one more retryable
outcome re-raises its error with exactly `max_retries` sleeps. -/
theorem c2_retry_exactly_on_retryable (max_retries : Nat)
    (base_delay max_delay backoff_factor : ℚ) :
    (∀ (st : Nat) (body : String) (rest : List HttpAttempt),
      st ∉ retry_status_codes →
      make_request_with_retry (.response st body :: rest) max_retries
          base_delay max_delay backoff_factor
        = (Except.ok (st, body), [])) ∧
    (∀ (pre : List HttpAttempt) (st : Nat) (body : String) (post : List HttpAttempt),
      (∀ a ∈ pre, isRetryable a = true) → pre.length ≤ max_retries →
      st ∉ retry_status_codes →
      make_request_with_retry (pre ++ .response st body :: post) max_retries
          base_delay max_delay backoff_factor
        = (Except.ok (st, body),
            (List.range pre.length).map
              (fun i => backoffDelay base_delay max_delay backoff_factor (i + 1)))) ∧
    (∀ (pre : List HttpAttempt) (a : HttpAttempt) (post : List HttpAttempt),
      (∀ x ∈ pre, isRetryable x = true) → isRetryable a = true →
      pre.length = max_retries →
      make_request_with_retry (pre ++ a :: post) max_retries
          base_delay max_delay backoff_factor
        = (Except.error (attemptMsg a),
            (List.range max_retries).map
              (fun i => backoffDelay base_delay max_delay backoff_factor (i + 1)))) := by
  refine ⟨?_, ?_, ?_⟩
  · intro st body rest hst
    exact request_loop_not_retryable max_retries base_delay max_delay backoff_factor
      st body rest 0 hst
  · intro pre st body post hall hlen hst
    rw [make_request_with_retry,
      request_loop_ok_after_retries max_retries base_delay max_delay backoff_factor
        st body pre post 0 hall (by omega) hst, map_backoff_zero]
  · intro pre a post hall ha hlen
    rw [make_request_with_retry,
      request_loop_exhausted max_retries base_delay max_delay backoff_factor
        pre a post 0 hall ha (by omega), hlen, map_backoff_zero]

/-- C2 witness: the amended theorem applied to the response sequence
`[503, 503, 200]` with the Python default parameters — exactly two backoff
sleeps occur and the result is the 200 body. -/
theorem c2_witness :
    make_request_with_retry
        [.response 503 "", .response 503 "", .response 200 "OK"] 3 5 60 2
      = (Except.ok (200, "OK"),
          (List.range 2).map (fun i => backoffDelay 5 60 2 (i + 1))) := by
  have h := (c2_retry_exactly_on_retryable 3 5 60 2).2.1
    [.response 503 "", .response 503 ""] 200 "OK" [] (by decide) (by decide) (by decide)
  simpa using h

end FLDOE

namespace FLDOE

/-! ## Claim C7 -/

theorem sortIds_perm (l : List String) : (sortIds l).Perm l :=
  List.mergeSort_perm l _

theorem sortIds_sorted (l : List String) : List.Sorted (· ≤ ·) (sortIds l) :=
  List.sorted_mergeSort' l

theorem sortIds_nodup {l : List String} (h : l.Nodup) : (sortIds l).Nodup :=
  ((sortIds_perm l).nodup_iff).mpr h

theorem sortIds_sorted_lt {l : List String} (h : l.Nodup) :
    List.Sorted (· < ·) (sortIds l) :=
  List.Sorted.lt_of_le (sortIds_sorted l) (sortIds_nodup h)

theorem sorted_drop_indexOf :
    ∀ {l : List String}, List.Sorted (· < ·) l → ∀ {x : String}, x ∈ l →
      l.drop (l.indexOf x + 1) = l.filter (fun y => decide (x < y))
  | [], _, x, hx => absurd hx (by simp)
  | a :: t, h, x, hx => by
    obtain ⟨ha, ht⟩ := List.sorted_cons.mp h
    by_cases hax : a = x
    · subst hax
      have hidx : (a :: t).indexOf a = 0 := by simp [List.indexOf_cons]
      rw [hidx]
      have hfa : decide (a < a) = false := by simp
      rw [List.drop_succ_cons, List.drop_zero, List.filter_cons, hfa]
      simp only [Bool.false_eq_true, if_false]
      exact (List.filter_eq_self.mpr (fun y hy => decide_eq_true (ha y hy))).symm
    · have hxt : x ∈ t := by
        rcases List.mem_cons.mp hx with rfl | h2
        · exact absurd rfl hax
        · exact h2
      have hidx : (a :: t).indexOf x = t.indexOf x + 1 := by
        simp [List.indexOf_cons, hax]
      rw [hidx, List.drop_succ_cons, sorted_drop_indexOf ht hxt, List.filter_cons]
      have hfa : decide (x < a) = false := by
        simp only [decide_eq_false_iff_not]
        exact fun hlt => absurd (lt_trans (ha x hxt) hlt) (lt_irrefl a)
      rw [hfa]
      simp

/-- C7: the crawl orchestrator processes identifiers in lexical order
(strictly sorted, keys being unique), and resuming from a member `x` of the
known identifier set processes exactly the identifiers lexically after `x`
(strictly after: `x` itself is not reprocessed). -/
theorem c7_resume_processes_strictly_after (benchmarks : List (String × BenchmarkData))
    (x : String) (hnd : (benchmarks.map Prod.fst).Nodup)
    (hx : x ∈ benchmarks.map Prod.fst) (hne : x ≠ "") :
    List.Sorted (· < ·) (workingSet benchmarks none) ∧
    List.Sorted (· < ·) (workingSet benchmarks (some x)) ∧
    ∀ y, y ∈ workingSet benchmarks (some x) ↔ y ∈ benchmarks.map Prod.fst ∧ x < y := by
  have hperm := sortIds_perm (benchmarks.map Prod.fst)
  have hsorted := sortIds_sorted_lt hnd
  have hxids : x ∈ sortIds (benchmarks.map Prod.fst) := hperm.mem_iff.mpr hx
  have hws : workingSet benchmarks (some x)
      = (sortIds (benchmarks.map Prod.fst)).drop
          ((sortIds (benchmarks.map Prod.fst)).indexOf x + 1) := by
    unfold workingSet
    simp [hne, hxids]
  have hfilter := sorted_drop_indexOf hsorted hxids
  refine ⟨hsorted, ?_, ?_⟩
  · rw [hws]
    exact hsorted.sublist (List.drop_sublist _ _)
  · intro y
    rw [hws, hfilter, List.mem_filter]
    constructor
    · rintro ⟨hy, hlt⟩
      exact ⟨hperm.mem_iff.mp hy, of_decide_eq_true hlt⟩
    · rintro ⟨hy, hlt⟩
      exact ⟨hperm.mem_iff.mpr hy, decide_eq_true hlt⟩

/-- C7 witness: the theorem applied at known ids `["A", "B", "C"]` with resume
point `"B"`; the working set contains exactly the ids lexically after `"B"`,
i.e. only `"C"`. -/
theorem c7_witness :
    List.Sorted (· < ·)
      (workingSet [("A", ⟨""⟩), ("B", ⟨""⟩), ("C", ⟨""⟩)] none) ∧
    List.Sorted (· < ·)
      (workingSet [("A", ⟨""⟩), ("B", ⟨""⟩), ("C", ⟨""⟩)] (some "B")) ∧
    ∀ y, y ∈ workingSet [("A", ⟨""⟩), ("B", ⟨""⟩), ("C", ⟨""⟩)] (some "B") ↔
      y ∈ ([("A", (⟨""⟩ : BenchmarkData)), ("B", ⟨""⟩), ("C", ⟨""⟩)].map Prod.fst) ∧ "B" < y :=
  c7_resume_processes_strictly_after [("A", ⟨""⟩), ("B", ⟨""⟩), ("C", ⟨""⟩)] "B"
    (by decide) (by decide) (by decide)

end FLDOE

namespace FLDOE

/-! ## Frame lemmas for the crawl (claims C9, C10) -/

theorem update_scrape_status_other {tbl : String → Option ScrapeStatusRow}
    {b s t e : String} {bid : String} (h : bid ≠ b) :
    (update_scrape_status tbl b s t e) bid = tbl bid := by
  simp [update_scrape_status, h]

theorem store_benchmark_other {tbl : String → Option BenchmarkRow}
    {b g d u subj : String} {lu : Option String} {bid : String} (h : bid ≠ b) :
    (store_benchmark tbl b g d u subj lu) bid = tbl bid := by
  simp [store_benchmark, h]

theorem extract_and_store_resources_append :
    ∀ (items : List ResourceItem) (resources : List ResourceRow) (bid now : String),
      ∃ new, (extract_and_store_resources items resources bid now).1 = resources ++ new ∧
        ∀ r ∈ new, r.benchmark_id = bid
  | [], resources, bid, now => ⟨[], by simp [extract_and_store_resources], by simp⟩
  | it :: rest, resources, bid, now => by
    simp only [extract_and_store_resources]
    split
    · exact extract_and_store_resources_append rest resources bid now
    · split
      · cases hok : it.store_ok with
        | false =>
          simp only [store_resource, hok, Bool.false_eq_true, if_false]
          exact extract_and_store_resources_append rest resources bid now
        | true =>
          simp only [store_resource, hok, if_true]
          obtain ⟨new, h1, h2⟩ :=
            extract_and_store_resources_append rest
              (resources ++ [⟨bid, stripTrailingColon it.title, absolutizeUrl it.url,
                it.resource_type, it.description, now⟩]) bid now
          refine ⟨⟨bid, stripTrailingColon it.title, absolutizeUrl it.url,
            it.resource_type, it.description, now⟩ :: new, ?_, ?_⟩
          · rw [h1, List.append_assoc, List.singleton_append]
          · intro r hr
            rcases List.mem_cons.mp hr with rfl | h3
            · rfl
            · exact h2 r h3
      · exact extract_and_store_resources_append rest resources bid now

theorem scrape_benchmark_frame (o : ItemOutcome) (db : DBState) (b url now bid : String)
    (hne : bid ≠ b) :
    (scrape_benchmark o db b url now).1.scrape_status bid = db.scrape_status bid ∧
    (scrape_benchmark o db b url now).1.benchmarks bid = db.benchmarks bid ∧
    (scrape_benchmark o db b url now).1.resources.filter (fun r => decide (r.benchmark_id = bid))
      = db.resources.filter (fun r => decide (r.benchmark_id = bid)) := by
  cases o with
  | error msg =>
    refine ⟨?_, rfl, rfl⟩
    show (update_scrape_status (update_scrape_status db.scrape_status b "pending" now "")
        b "failed" now msg) bid = db.scrape_status bid
    rw [update_scrape_status_other hne, update_scrape_status_other hne]
  | ok items aps =>
    refine ⟨?_, ?_, ?_⟩
    · show (update_scrape_status (update_scrape_status db.scrape_status b "pending" now "")
          b "success" now "") bid = db.scrape_status bid
      rw [update_scrape_status_other hne, update_scrape_status_other hne]
    · show (store_benchmark db.benchmarks b "" "" url "Mathematics" (some now)) bid
        = db.benchmarks bid
      rw [store_benchmark_other hne]
    · show (extract_and_store_resources items db.resources b now).1.filter
          (fun r => decide (r.benchmark_id = bid))
        = db.resources.filter (fun r => decide (r.benchmark_id = bid))
      obtain ⟨new, h1, h2⟩ := extract_and_store_resources_append items db.resources b now
      rw [h1, List.filter_append]
      have hnil : new.filter (fun r => decide (r.benchmark_id = bid)) = [] := by
        apply List.filter_eq_nil_iff.mpr
        intro r hr
        simp only [decide_eq_true_iff]
        rw [h2 r hr]
        exact fun heq => hne heq.symm
      rw [hnil, List.append_nil]

end FLDOE

namespace FLDOE

theorem scrape_all_go_totals (outcomes : String → ItemOutcome) (now : String)
    (benchmarks : List (String × BenchmarkData)) :
    ∀ (ids : List String) (st : CrawlState) (tp ts : Nat),
      (scrape_all_go outcomes now benchmarks ids st tp ts).2.1
        = tp + (ids.filter (fun b => decide (urlOf benchmarks b ≠ ""))).length
  | [], st, tp, ts => by simp [scrape_all_go]
  | b :: rest, st, tp, ts => by
    simp only [scrape_all_go, List.filter_cons]
    by_cases hu : urlOf benchmarks b = ""
    · rw [if_pos hu]
      have : (decide (urlOf benchmarks b ≠ "")) = false := by simp [hu]
      rw [this]
      simp only [Bool.false_eq_true, if_false]
      exact scrape_all_go_totals outcomes now benchmarks rest st tp ts
    · rw [if_neg hu]
      have hd : (decide (urlOf benchmarks b ≠ "")) = true := by simp [hu]
      rw [hd]
      simp only [if_true, List.length_cons]
      by_cases hs : (scrape_benchmark (outcomes b) st.db b (urlOf benchmarks b) now).2 = true
      · rw [if_pos hs, scrape_all_go_totals outcomes now benchmarks rest _ (tp + 1) (ts + 1)]
        omega
      · rw [if_neg hs, scrape_all_go_totals outcomes now benchmarks rest _ (tp + 1) ts]
        omega

theorem scrape_all_go_success_totals (outcomes : String → ItemOutcome) (now : String)
    (benchmarks : List (String × BenchmarkData)) :
    ∀ (ids : List String) (st : CrawlState) (tp ts : Nat),
      (scrape_all_go outcomes now benchmarks ids st tp ts).2.2
        = ts + (ids.filter (fun b =>
            decide (urlOf benchmarks b ≠ "") && isOkOutcome (outcomes b))).length
  | [], st, tp, ts => by simp [scrape_all_go]
  | b :: rest, st, tp, ts => by
    simp only [scrape_all_go, List.filter_cons]
    by_cases hu : urlOf benchmarks b = ""
    · rw [if_pos hu]
      have hc : (decide (urlOf benchmarks b ≠ "") && isOkOutcome (outcomes b)) = false := by
        simp [hu]
      rw [hc]
      simp only [Bool.false_eq_true, if_false]
      exact scrape_all_go_success_totals outcomes now benchmarks rest st tp ts
    · rw [if_neg hu]
      cases ho : outcomes b with
      | ok items aps =>
        have hsuc : (scrape_benchmark (ItemOutcome.ok items aps) st.db b
            (urlOf benchmarks b) now).2 = true := rfl
        rw [if_pos hsuc]
        have hc : (decide (urlOf benchmarks b ≠ "")
            && isOkOutcome (ItemOutcome.ok items aps)) = true := by
          simp [hu, isOkOutcome]
        rw [hc]
        simp only [if_true, List.length_cons]
        rw [scrape_all_go_success_totals outcomes now benchmarks rest _ (tp + 1) (ts + 1)]
        omega
      | error msg =>
        have hf : (scrape_benchmark (ItemOutcome.error msg) st.db b
            (urlOf benchmarks b) now).2 = false := rfl
        have hsuc : ¬ (scrape_benchmark (ItemOutcome.error msg) st.db b
            (urlOf benchmarks b) now).2 = true := by
          rw [hf]
          simp
        rw [if_neg hsuc]
        have hc : (decide (urlOf benchmarks b ≠ "")
            && isOkOutcome (ItemOutcome.error msg)) = false := by
          simp [isOkOutcome]
        rw [hc]
        simp only [Bool.false_eq_true, if_false]
        exact scrape_all_go_success_totals outcomes now benchmarks rest _ (tp + 1) ts

theorem scrape_all_go_frame (outcomes : String → ItemOutcome) (now : String)
    (benchmarks : List (String × BenchmarkData)) (bid : String)
    (hurl : urlOf benchmarks bid = "") :
    ∀ (ids : List String) (st : CrawlState) (tp ts : Nat),
      ((scrape_all_go outcomes now benchmarks ids st tp ts).1.db.scrape_status bid
        = st.db.scrape_status bid) ∧
      ((scrape_all_go outcomes now benchmarks ids st tp ts).1.db.benchmarks bid
        = st.db.benchmarks bid) ∧
      ((scrape_all_go outcomes now benchmarks ids st tp ts).1.db.resources.filter
          (fun r => decide (r.benchmark_id = bid))
        = st.db.resources.filter (fun r => decide (r.benchmark_id = bid))) ∧
      ((∀ cp, st.checkpoint = some cp → cp.last_processed ≠ bid) →
        ∀ cp, (scrape_all_go outcomes now benchmarks ids st tp ts).1.checkpoint = some cp →
          cp.last_processed ≠ bid)
  | [], st, tp, ts => ⟨rfl, rfl, rfl, fun h => h⟩
  | b :: rest, st, tp, ts => by
    simp only [scrape_all_go]
    by_cases hu : urlOf benchmarks b = ""
    · rw [if_pos hu]
      exact scrape_all_go_frame outcomes now benchmarks bid hurl rest st tp ts
    · rw [if_neg hu]
      have hne : bid ≠ b := fun heq => hu (heq ▸ hurl)
      obtain ⟨hf1, hf2, hf3⟩ :=
        scrape_benchmark_frame (outcomes b) st.db b (urlOf benchmarks b) now bid hne
      by_cases hs : (scrape_benchmark (outcomes b) st.db b (urlOf benchmarks b) now).2 = true
      · rw [if_pos hs]
        obtain ⟨g1, g2, g3, g4⟩ :=
          scrape_all_go_frame outcomes now benchmarks bid hurl rest
            { db := (scrape_benchmark (outcomes b) st.db b (urlOf benchmarks b) now).1
              checkpoint := some ⟨b, now⟩ } (tp + 1) (ts + 1)
        refine ⟨g1.trans hf1, g2.trans hf2, g3.trans hf3, fun _ => ?_⟩
        apply g4
        intro cp hcp
        rw [Option.some.injEq] at hcp
        rw [← hcp]
        exact fun heq => hne heq.symm
      · rw [if_neg hs]
        obtain ⟨g1, g2, g3, g4⟩ :=
          scrape_all_go_frame outcomes now benchmarks bid hurl rest
            { db := (scrape_benchmark (outcomes b) st.db b (urlOf benchmarks b) now).1
              checkpoint := st.checkpoint } (tp + 1) ts
        exact ⟨g1.trans hf1, g2.trans hf2, g3.trans hf3, fun h => g4 h⟩

/-- C10: a benchmark in the working set whose record has an empty
`cpalms_url` is skipped entirely by a crawl run: its scrape-status row is
never written (it stays absent/pending forever), its benchmark row and its
resources are untouched (it is never fetched), no checkpoint naming it is
ever saved, and it is counted in neither the processed nor the successful
totals: the processed total counts exactly the working-set ids with a
non-empty URL, the successful total counts exactly those of them whose
outcome is the non-raising one, and the skipped id belongs to neither
count. -/
theorem c10_empty_url_is_skipped (outcomes : String → ItemOutcome) (now : String)
    (benchmarks : List (String × BenchmarkData)) (start_from : Option String)
    (st : CrawlState) (bid : String) (d : BenchmarkData)
    (hlook : lookupBenchmark benchmarks bid = some d) (hurl : d.cpalms_url = "")
    (hcp : ∀ cp, st.checkpoint = some cp → cp.last_processed ≠ bid) :
    ((scrape_all_benchmarks outcomes now benchmarks start_from st).1.db.scrape_status bid
      = st.db.scrape_status bid) ∧
    ((scrape_all_benchmarks outcomes now benchmarks start_from st).1.db.benchmarks bid
      = st.db.benchmarks bid) ∧
    ((scrape_all_benchmarks outcomes now benchmarks start_from st).1.db.resources.filter
        (fun r => decide (r.benchmark_id = bid))
      = st.db.resources.filter (fun r => decide (r.benchmark_id = bid))) ∧
    (∀ cp, (scrape_all_benchmarks outcomes now benchmarks start_from st).1.checkpoint = some cp →
      cp.last_processed ≠ bid) ∧
    ((scrape_all_benchmarks outcomes now benchmarks start_from st).2.1
      = ((workingSet benchmarks start_from).filter
          (fun b => decide (urlOf benchmarks b ≠ ""))).length) ∧
    ((scrape_all_benchmarks outcomes now benchmarks start_from st).2.2
      = ((workingSet benchmarks start_from).filter
          (fun b => decide (urlOf benchmarks b ≠ "") && isOkOutcome (outcomes b))).length) ∧
    bid ∉ (workingSet benchmarks start_from).filter
        (fun b => decide (urlOf benchmarks b ≠ "")) ∧
    bid ∉ (workingSet benchmarks start_from).filter
        (fun b => decide (urlOf benchmarks b ≠ "") && isOkOutcome (outcomes b)) := by
  have hu : urlOf benchmarks bid = "" := by
    unfold urlOf
    rw [hlook]
    exact hurl
  obtain ⟨g1, g2, g3, g4⟩ :=
    scrape_all_go_frame outcomes now benchmarks bid hu
      (workingSet benchmarks start_from) st 0 0
  refine ⟨g1, g2, g3, g4 hcp, ?_, ?_, ?_, ?_⟩
  · simpa using
      scrape_all_go_totals outcomes now benchmarks (workingSet benchmarks start_from) st 0 0
  · simpa using
      scrape_all_go_success_totals outcomes now benchmarks
        (workingSet benchmarks start_from) st 0 0
  · intro hmem
    have := (List.mem_filter.mp hmem).2
    rw [hu] at this
    simp at this
  · intro hmem
    have := (List.mem_filter.mp hmem).2
    rw [hu] at this
    simp at this

/-- C10 witness: the theorem applied to a run over
`[("A", url := ""), ("B", url := "https://x")]` starting fresh with an empty
database and no checkpoint: `"A"` is skipped entirely. -/
theorem c10_witness :
    ((scrape_all_benchmarks (fun _ => .ok [] []) "t0"
        [("A", ⟨""⟩), ("B", ⟨"https://x"⟩)] none initialCrawlState).1.db.scrape_status "A"
      = initialCrawlState.db.scrape_status "A") ∧
    ((scrape_all_benchmarks (fun _ => .ok [] []) "t0"
        [("A", ⟨""⟩), ("B", ⟨"https://x"⟩)] none initialCrawlState).1.db.benchmarks "A"
      = initialCrawlState.db.benchmarks "A") ∧
    ((scrape_all_benchmarks (fun _ => .ok [] []) "t0"
        [("A", ⟨""⟩), ("B", ⟨"https://x"⟩)] none initialCrawlState).1.db.resources.filter
        (fun r => decide (r.benchmark_id = "A"))
      = initialCrawlState.db.resources.filter (fun r => decide (r.benchmark_id = "A"))) ∧
    (∀ cp, (scrape_all_benchmarks (fun _ => .ok [] []) "t0"
        [("A", ⟨""⟩), ("B", ⟨"https://x"⟩)] none initialCrawlState).1.checkpoint = some cp →
      cp.last_processed ≠ "A") ∧
    ((scrape_all_benchmarks (fun _ => .ok [] []) "t0"
        [("A", ⟨""⟩), ("B", ⟨"https://x"⟩)] none initialCrawlState).2.1
      = ((workingSet [("A", ⟨""⟩), ("B", ⟨"https://x"⟩)] none).filter
          (fun b => decide (urlOf [("A", ⟨""⟩), ("B", ⟨"https://x"⟩)] b ≠ ""))).length) ∧
    ((scrape_all_benchmarks (fun _ => .ok [] []) "t0"
        [("A", ⟨""⟩), ("B", ⟨"https://x"⟩)] none initialCrawlState).2.2
      = ((workingSet [("A", ⟨""⟩), ("B", ⟨"https://x"⟩)] none).filter
          (fun b => decide (urlOf [("A", ⟨""⟩), ("B", ⟨"https://x"⟩)] b ≠ "")
            && isOkOutcome ((fun _ => ItemOutcome.ok [] []) b))).length) ∧
    "A" ∉ (workingSet [("A", ⟨""⟩), ("B", ⟨"https://x"⟩)] none).filter
        (fun b => decide (urlOf [("A", ⟨""⟩), ("B", ⟨"https://x"⟩)] b ≠ "")) ∧
    "A" ∉ (workingSet [("A", ⟨""⟩), ("B", ⟨"https://x"⟩)] none).filter
        (fun b => decide (urlOf [("A", ⟨""⟩), ("B", ⟨"https://x"⟩)] b ≠ "")
          && isOkOutcome ((fun _ => ItemOutcome.ok [] []) b)) :=
  c10_empty_url_is_skipped (fun _ => .ok [] []) "t0"
    [("A", ⟨""⟩), ("B", ⟨"https://x"⟩)] none initialCrawlState "A" ⟨""⟩
    (by decide) rfl (fun cp hcp => by simp [initialCrawlState] at hcp)

end FLDOE

namespace FLDOE

/-! ## Claim C9 -/

theorem scrape_benchmark_error_eq (msg : String) (db : DBState) (bid url now : String) :
    scrape_benchmark (.error msg) db bid url now
      = ({ db with scrape_status := (update_scrape_status
            (update_scrape_status db.scrape_status bid "pending" now "") bid "failed" now msg) },
         false) := rfl

theorem scrape_benchmark_error_status (msg : String) (db : DBState) (bid url now : String) :
    ∃ n, (scrape_benchmark (.error msg) db bid url now).1.scrape_status bid
      = some ⟨"failed", n, now, msg⟩ := by
  cases h : db.scrape_status bid with
  | none => exact ⟨2, by simp [scrape_benchmark_error_eq, update_scrape_status, h]⟩
  | some row =>
    exact ⟨row.attempt_count + 2, by simp [scrape_benchmark_error_eq, update_scrape_status, h]⟩

theorem scrape_all_go_status_notmem (outcomes : String → ItemOutcome) (now : String)
    (benchmarks : List (String × BenchmarkData)) (bid : String) :
    ∀ (ids : List String), bid ∉ ids → ∀ (st : CrawlState) (tp ts : Nat),
      (scrape_all_go outcomes now benchmarks ids st tp ts).1.db.scrape_status bid
        = st.db.scrape_status bid
  | [], _, st, tp, ts => rfl
  | b :: rest, hmem, st, tp, ts => by
    have hne : bid ≠ b := fun heq => hmem (heq ▸ List.mem_cons_self b rest)
    have hrest : bid ∉ rest := fun h2 => hmem (List.mem_cons_of_mem b h2)
    simp only [scrape_all_go]
    by_cases hu : urlOf benchmarks b = ""
    · rw [if_pos hu]
      exact scrape_all_go_status_notmem outcomes now benchmarks bid rest hrest st tp ts
    · rw [if_neg hu]
      obtain ⟨hf1, _, _⟩ :=
        scrape_benchmark_frame (outcomes b) st.db b (urlOf benchmarks b) now bid hne
      by_cases hs : (scrape_benchmark (outcomes b) st.db b (urlOf benchmarks b) now).2 = true
      · rw [if_pos hs]
        exact (scrape_all_go_status_notmem outcomes now benchmarks bid rest hrest _
          (tp + 1) (ts + 1)).trans hf1
      · rw [if_neg hs]
        exact (scrape_all_go_status_notmem outcomes now benchmarks bid rest hrest _
          (tp + 1) ts).trans hf1

theorem scrape_all_go_error_item (outcomes : String → ItemOutcome) (now : String)
    (benchmarks : List (String × BenchmarkData)) (l2 : List String) (bid msg : String)
    (hurl : urlOf benchmarks bid ≠ "") (hout : outcomes bid = .error msg)
    (hnot : bid ∉ l2) :
    ∀ (l1 : List String) (st : CrawlState) (tp ts : Nat),
      ∃ n, (scrape_all_go outcomes now benchmarks (l1 ++ bid :: l2) st tp ts).1.db.scrape_status bid
        = some ⟨"failed", n, now, msg⟩
  | [], st, tp, ts => by
    simp only [List.nil_append, scrape_all_go]
    rw [if_neg hurl, hout]
    have h2 : (scrape_benchmark (.error msg) st.db bid (urlOf benchmarks bid) now).2 = false := rfl
    rw [h2]
    simp only [Bool.false_eq_true, if_false]
    obtain ⟨n, hn⟩ :=
      scrape_benchmark_error_status msg st.db bid (urlOf benchmarks bid) now
    exact ⟨n, (scrape_all_go_status_notmem outcomes now benchmarks bid l2 hnot _
      (tp + 1) ts).trans hn⟩
  | b :: l1, st, tp, ts => by
    simp only [List.cons_append, scrape_all_go]
    by_cases hu : urlOf benchmarks b = ""
    · rw [if_pos hu]
      exact scrape_all_go_error_item outcomes now benchmarks l2 bid msg hurl hout hnot
        l1 st tp ts
    · rw [if_neg hu]
      by_cases hs : (scrape_benchmark (outcomes b) st.db b (urlOf benchmarks b) now).2 = true
      · rw [if_pos hs]
        exact scrape_all_go_error_item outcomes now benchmarks l2 bid msg hurl hout hnot
          l1 _ (tp + 1) (ts + 1)
      · rw [if_neg hs]
        exact scrape_all_go_error_item outcomes now benchmarks l2 bid msg hurl hout hnot
          l1 _ (tp + 1) ts

/-- C9 (amended): a single benchmark's scrape failure never aborts the crawl
run. When the fetch (or page parse) of an item raises — e.g. retries
exhausted — the orchestrator records scrape status `failed` with that error
message for the item and still processes every remaining item in order: the
processed total of the whole run counts every working-set id with a non-empty
URL, whatever each item's outcome. Extraction anomalies and persistence write
failures inside an item are, however, caught and logged without marking the
item failed (its status still ends `success`); they too never abort the
run. -/
theorem c9_item_failure_never_aborts (outcomes : String → ItemOutcome) (now : String)
    (benchmarks : List (String × BenchmarkData)) (st : CrawlState)
    (l1 l2 : List String) (bid msg : String)
    (hurl : urlOf benchmarks bid ≠ "") (hout : outcomes bid = .error msg)
    (hnot : bid ∉ l2) :
    (∃ n, (scrape_all_go outcomes now benchmarks (l1 ++ bid :: l2) st 0 0).1.db.scrape_status bid
      = some ⟨"failed", n, now, msg⟩) ∧
    (scrape_all_go outcomes now benchmarks (l1 ++ bid :: l2) st 0 0).2.1
      = ((l1 ++ bid :: l2).filter (fun b => decide (urlOf benchmarks b ≠ ""))).length := by
  refine ⟨scrape_all_go_error_item outcomes now benchmarks l2 bid msg hurl hout hnot l1 st 0 0, ?_⟩
  simpa using scrape_all_go_totals outcomes now benchmarks (l1 ++ bid :: l2) st 0 0

/-- C9 counterexample: a persistence failure does not mark the item failed.
With one extracted lesson-plan resource whose database INSERT fails
environmentally (`store_ok = false`), `scrape_benchmark` still returns success
and records scrape status `success`, and the resource row is absent — the
claim that a persistence failure is recorded as status `failed` is false. -/
theorem c9_counterexample :
    ((scrape_benchmark
        (.ok [⟨"Persisted Lesson", "/PreviewResourceLesson/Preview/123", "Lesson Plan", "", false⟩] [])
        emptyDB "MA.K.NSO.1.1" "https://www.cpalms.org/x" "t0").2 = true) ∧
    (((scrape_benchmark
        (.ok [⟨"Persisted Lesson", "/PreviewResourceLesson/Preview/123", "Lesson Plan", "", false⟩] [])
        emptyDB "MA.K.NSO.1.1" "https://www.cpalms.org/x" "t0").1.scrape_status
        "MA.K.NSO.1.1").map ScrapeStatusRow.status = some "success") ∧
    ((scrape_benchmark
        (.ok [⟨"Persisted Lesson", "/PreviewResourceLesson/Preview/123", "Lesson Plan", "", false⟩] [])
        emptyDB "MA.K.NSO.1.1" "https://www.cpalms.org/x" "t0").1.resources = []) := by
  refine ⟨rfl, ?_, rfl⟩
  simp [scrape_benchmark, update_scrape_status, extract_and_store_resources,
    extract_and_store_access_points, store_resource, emptyDB]

/-- C9 witness: the amended theorem applied to a one-item run whose fetch
fails with message `"timeout"`: the item is recorded failed and the run's
processed total still counts it. -/
theorem c9_witness :
    (∃ n, (scrape_all_go (fun _ => .error "timeout") "t0" [("A", ⟨"https://x"⟩)]
        ([] ++ "A" :: []) initialCrawlState 0 0).1.db.scrape_status "A"
      = some ⟨"failed", n, "t0", "timeout"⟩) ∧
    (scrape_all_go (fun _ => .error "timeout") "t0" [("A", ⟨"https://x"⟩)]
        ([] ++ "A" :: []) initialCrawlState 0 0).2.1
      = ((([] : List String) ++ "A" :: []).filter
          (fun b => decide (urlOf [("A", ⟨"https://x"⟩)] b ≠ ""))).length :=
  c9_item_failure_never_aborts (fun _ => .error "timeout") "t0" [("A", ⟨"https://x"⟩)]
    initialCrawlState [] [] "A" "timeout" (by decide) rfl (by simp)

end FLDOE
